import Mathlib

/-
  Verification of the folio worker runtime, environment composition,
  runner forbid-only handling, and artifact path computation.

  The definitions below are a shallow embedding of:
  - src/src/workerRunner.ts   (WorkerRunner._runSpec, _runHooks,
    _runTestWithBeforeHooks, _runAfterHooks, _runEnvBeforeEach,
    _reportDone, _reportDoneAndStop, relativeArtifactsPath,
    outputPath, snapshotPath)
  - src/unnamed/part_000      (mergeEnvsImpl)
  - src/unnamed/part_004      (Runner._run forbid-only handling)
  - src/src/cli.ts            (runTests exit-code mapping)

  User callbacks (hooks, test bodies, environment callbacks) are modelled
  by their observable behaviour: whether they throw, what they return, and
  whether the surrounding deadline race times out. Deadline races are
  modelled by a boolean outcome per raced phase, plus a marker recording
  which deadline (the per-test one or a freshly computed full-length one)
  the teardown phase was raced against.
-/

namespace Folio

/-- Final status of a test attempt (TestStatus in src/src/types.ts). -/
inductive Status where
  | passed
  | failed
  | timedOut
  | skipped
deriving DecidableEq, Repr

/-- Kinds of suite annotations pushed by test.skip / fixme / fail / slow
    (the modifier in src/unnamed/part_000, consumed at
    src/src/workerRunner.ts lines 213-219). -/
inductive AnnKind where
  | skip
  | fixme
  | fail
  | slow
deriving DecidableEq, Repr

/-- A value thrown by user code: either the distinguished SkipError of
    src/src/spec.ts, or an ordinary error carrying an abstract payload. -/
inductive Err where
  | skipError
  | failure (msg : Nat)
deriving DecidableEq, Repr

/-- Hook kinds as stored in Suite._hooks. -/
inductive HookKind where
  | beforeEach
  | afterEach
  | beforeAll
  | afterAll
deriving DecidableEq, Repr

/-- One declared suite hook together with the observable behaviour of its
    user function: `throws = none` means it returns normally. `hid`
    identifies the hook in execution logs. -/
structure Hook where
  kind : HookKind
  hid : Nat
  throws : Option Err
deriving DecidableEq, Repr

/-- One suite of a spec's ancestor chain: its declared hooks (in
    declaration order) and its accumulated annotations (Suite._annotations,
    already filtered by their conditions at declaration time). -/
structure SuiteNode where
  hooks : List Hook
  anns : List AnnKind
deriving DecidableEq, Repr

/-- WorkerRunner._runHooks lines 349-355: walk the ancestor chain from the
    spec's parent suite outwards (`chain` is innermost-first), push each
    suite's hooks of the requested kind reversed, and finally reverse the
    whole list for beforeEach hooks. -/
def hooksToRun (chain : List SuiteNode) (k : HookKind) : List Hook :=
  let all := chain.foldl
    (fun acc s => acc ++ (s.hooks.filter (fun h => h.kind == k)).reverse) []
  if k == HookKind.beforeEach then all.reverse else all

/-- WorkerRunner._runHooks lines 356-364: run every hook in the list, and
    keep the first thrown error (`error = error || e`). Returns the ids of
    the hooks that were invoked and the captured first error. -/
def runHookLoop (hooks : List Hook) : List Nat × Option Err :=
  hooks.foldl (fun acc h => (acc.1 ++ [h.hid], acc.2 <|> h.throws)) ([], none)

/-- The mutable part of TestInfo that the worker tracks for one attempt. -/
structure TestInfoM where
  expectedStatus : Status
  anns : List AnnKind
  status : Status
  error : Option Err
deriving DecidableEq, Repr

/-- WorkerRunner._runSpec lines 214-215: annotations inherited from the
    ancestor suites, pushed parent-first along the chain. -/
def collectAnnotations (chain : List SuiteNode) : List AnnKind :=
  chain.foldl (fun acc s => acc ++ s.anns) []

/-- WorkerRunner._runSpec lines 216-219: skip/fixme force expected status
    skipped, otherwise fail forces failed, otherwise passed. -/
def computeExpectedStatus (anns : List AnnKind) : Status :=
  if anns.any (fun a => a == AnnKind.skip || a == AnnKind.fixme) then Status.skipped
  else if anns.any (fun a => a == AnnKind.fail) then Status.failed
  else Status.passed

/-- Abstract bag of test arguments (a JS object), as an association list
    from keys to values. -/
abbrev ArgMap := List (Nat × Nat)

/-- Observable behaviour of the environment's beforeEach callback for one
    attempt. `returns none` models returning undefined. -/
inductive EnvBeforeEachB where
  | absent
  | returns (args : Option ArgMap)
  | throws (e : Err)
deriving DecidableEq, Repr

/-- Which deadline a teardown race used: the per-test deadline computed at
    the start of the attempt, or a freshly computed full-length one
    (WorkerRunner._runSpec lines 247-256). -/
inductive DeadlineKind where
  | original
  | fresh
deriving DecidableEq, Repr

/-- One spec together with the observable behaviour of the user code the
    attempt would execute and of the deadline races. The three stop flags
    model an external WorkerRunner.stop() observed at the three
    `if (this._isStopped) return;` checks of _runSpec (lines 234, 244,
    258); a stop can only be observed after an await, which is why these
    are the only interruption points modelled. -/
structure SpecCase where
  sid : Nat
  chain : List SuiteNode
  envBeforeEach : EnvBeforeEachB
  envAfterEach : Option (Option Err)
  body : Option Err
  envPhaseTimesOut : Bool
  beforePhaseTimesOut : Bool
  afterPhaseTimesOut : Bool
  stopAfterEnvPhase : Bool
  stopAfterBeforePhase : Bool
  stopAfterAfterPhase : Bool
deriving DecidableEq, Repr

/-- Whether an environment beforeEach behaviour completes without throwing. -/
def envBeforeEachSucceeds : EnvBeforeEachB → Bool
  | EnvBeforeEachB.throws _ => false
  | _ => true

/-- WorkerRunner._runEnvBeforeEach lines 277-291: returns the test args, or
    none when the environment's beforeEach failed, in which case the attempt
    is marked failed. An absent beforeEach or an undefined result yields the
    empty args object. -/
def runEnvBeforeEach (b : EnvBeforeEachB) (info : TestInfoM) :
    Option ArgMap × TestInfoM :=
  match b with
  | EnvBeforeEachB.absent => (some [], info)
  | EnvBeforeEachB.returns none => (some [], info)
  | EnvBeforeEachB.returns (some a) => (some a, info)
  | EnvBeforeEachB.throws e =>
      (none, { info with status := Status.failed, error := some e })

/-- WorkerRunner._runTestWithBeforeHooks lines 293-321: run the beforeEach
    hooks; a thrown SkipError marks the attempt skipped, any other error
    marks it failed; the body runs only when the status is still neither
    failed nor skipped. Returns the updated info, the log of invoked
    beforeEach hook ids, and whether the body was invoked. -/
def runTestWithBeforeHooks (sc : SpecCase) (info : TestInfoM) :
    TestInfoM × List Nat × Bool :=
  let r := runHookLoop (hooksToRun sc.chain HookKind.beforeEach)
  let info1 :=
    match r.2 with
    | none => info
    | some Err.skipError => { info with status := Status.skipped }
    | some e => { info with status := Status.failed, error := some e }
  if info1.status == Status.failed || info1.status == Status.skipped then
    (info1, r.1, false)
  else
    match sc.body with
    | none => ({ info1 with status := Status.passed }, r.1, true)
    | some Err.skipError => ({ info1 with status := Status.skipped }, r.1, true)
    | some e => ({ info1 with status := Status.failed, error := some e }, r.1, true)

/-- WorkerRunner._runAfterHooks lines 323-344: run the afterEach hooks; a
    non-skip first error is recorded only when the status is still passed;
    then the environment's afterEach runs, its error again recorded only
    over a passed status. Returns the updated info, the log of invoked
    afterEach hook ids, and whether the environment afterEach was invoked. -/
def runAfterHooks (sc : SpecCase) (info : TestInfoM) :
    TestInfoM × List Nat × Bool :=
  let r := runHookLoop (hooksToRun sc.chain HookKind.afterEach)
  let info1 :=
    match r.2 with
    | none => info
    | some Err.skipError => info
    | some e =>
        if info.status == Status.passed then
          { info with status := Status.failed, error := some e }
        else info
  match sc.envAfterEach with
  | none => (info1, r.1, false)
  | some none => (info1, r.1, true)
  | some (some e) =>
      (if info1.status == Status.passed then
        { info1 with status := Status.failed, error := some e }
      else info1, r.1, true)

/-- Events a worker emits for a test, with the payload fields the claims
    mention (buildTestEndPayload lines 406-417 includes both the final and
    the expected status). -/
inductive Event where
  | testBegin (testId : Nat)
  | testEnd (testId : Nat) (status : Status) (expectedStatus : Status)
deriving DecidableEq, Repr

/-- Everything observable about one attempt of one spec. A timed-out raced
    phase is abandoned: the logs and status writes it had not yet performed
    are lost, which the model represents by recording no effects for an
    abandoned phase (user status writes all happen after the awaited user
    callbacks of the phase have returned, so an abandoned phase has
    performed none of them). -/
structure SpecResult where
  events : List Event
  beforeLog : List Nat
  bodyRan : Bool
  afterLog : List Nat
  envAfterRan : Bool
  afterDeadline : Option DeadlineKind
  info : TestInfoM
  stopped : Bool
  failedSet : Bool
deriving DecidableEq, Repr

/-- WorkerRunner._runSpec lines 184-219: the fresh TestInfo for an attempt,
    with inherited annotations and the computed expected status. -/
def initTestInfo (sc : SpecCase) : TestInfoM :=
  { expectedStatus := computeExpectedStatus (collectAnnotations sc.chain),
    anns := collectAnnotations sc.chain,
    status := Status.passed, error := none }

/-- WorkerRunner._runSpec lines 184-269 for one attempt: build the info,
    inherit annotations, emit testBegin, short-circuit an expected-skipped
    test, otherwise race the environment beforeEach, the before-hooks-plus-
    body, and the after hooks against the deadline, giving the after hooks a
    fresh full-length deadline when the before phase timed out; finally emit
    testEnd and record whether line 264 set _failedTestId. -/
def runSpecCase (sc : SpecCase) : SpecResult :=
  let info0 := initTestInfo sc
  let evBegin := [Event.testBegin sc.sid]
  if info0.expectedStatus == Status.skipped then
    let info1 := { info0 with status := Status.skipped }
    { events := evBegin ++ [Event.testEnd sc.sid info1.status info1.expectedStatus],
      beforeLog := [], bodyRan := false, afterLog := [], envAfterRan := false,
      afterDeadline := none, info := info1, stopped := false, failedSet := false }
  else
    let er := runEnvBeforeEach sc.envBeforeEach info0
    let testArgs := if sc.envPhaseTimesOut then none else er.1
    let info1 :=
      if sc.envPhaseTimesOut then
        if info0.status == Status.passed then
          { info0 with status := Status.timedOut }
        else info0
      else er.2
    if sc.stopAfterEnvPhase then
      { events := evBegin, beforeLog := [], bodyRan := false, afterLog := [],
        envAfterRan := false, afterDeadline := none, info := info1,
        stopped := true, failedSet := false }
    else if testArgs.isNone then
      { events := evBegin ++ [Event.testEnd sc.sid info1.status info1.expectedStatus],
        beforeLog := [], bodyRan := false, afterLog := [], envAfterRan := false,
        afterDeadline := none, info := info1, stopped := false,
        failedSet := info1.status != Status.passed }
    else if sc.beforePhaseTimesOut then
      let info2 :=
        if info1.status == Status.passed then
          { info1 with status := Status.timedOut }
        else info1
      if sc.stopAfterBeforePhase then
        { events := evBegin, beforeLog := [], bodyRan := false, afterLog := [],
          envAfterRan := false, afterDeadline := none, info := info2,
          stopped := true, failedSet := false }
      else
        let ar := runAfterHooks sc info2
        let info3 := if sc.afterPhaseTimesOut then info2 else ar.1
        let aLog := if sc.afterPhaseTimesOut then [] else ar.2.1
        let aEnv := if sc.afterPhaseTimesOut then false else ar.2.2
        if sc.stopAfterAfterPhase then
          { events := evBegin, beforeLog := [], bodyRan := false,
            afterLog := aLog, envAfterRan := aEnv,
            afterDeadline := some DeadlineKind.fresh, info := info3,
            stopped := true, failedSet := false }
        else
          { events := evBegin ++
              [Event.testEnd sc.sid info3.status info3.expectedStatus],
            beforeLog := [], bodyRan := false, afterLog := aLog,
            envAfterRan := aEnv, afterDeadline := some DeadlineKind.fresh,
            info := info3, stopped := false,
            failedSet := info3.status != Status.passed }
    else
      let br := runTestWithBeforeHooks sc info1
      let info2 := br.1
      if sc.stopAfterBeforePhase then
        { events := evBegin, beforeLog := br.2.1, bodyRan := br.2.2,
          afterLog := [], envAfterRan := false, afterDeadline := none,
          info := info2, stopped := true, failedSet := false }
      else
        let ar := runAfterHooks sc info2
        let info3 :=
          if sc.afterPhaseTimesOut then
            if info2.status == Status.passed then
              { info2 with status := Status.timedOut }
            else info2
          else ar.1
        let aLog := if sc.afterPhaseTimesOut then [] else ar.2.1
        let aEnv := if sc.afterPhaseTimesOut then false else ar.2.2
        if sc.stopAfterAfterPhase then
          { events := evBegin, beforeLog := br.2.1, bodyRan := br.2.2,
            afterLog := aLog, envAfterRan := aEnv,
            afterDeadline := some DeadlineKind.original, info := info3,
            stopped := true, failedSet := false }
        else
          { events := evBegin ++
              [Event.testEnd sc.sid info3.status info3.expectedStatus],
            beforeLog := br.2.1, bodyRan := br.2.2, afterLog := aLog,
            envAfterRan := aEnv, afterDeadline := some DeadlineKind.original,
            info := info3, stopped := false,
            failedSet := info3.status != Status.passed }

/-- Payload of the done message (DonePayload of src/src/ipc.ts), restricted
    to the fields the claims mention; remaining holds test ids. -/
structure DonePayload where
  failedTestId : Option Nat
  remaining : List Nat
deriving DecidableEq, Repr

/-- Worker state across one run message. -/
structure WorkerState where
  events : List Event
  remaining : List Nat
  failedTestId : Option Nat
  isStopped : Bool
  done : Option DonePayload
deriving DecidableEq, Repr

/-- WorkerRunner._runSpec at the worker level (lines 170-182 and 261-269):
    skip the spec when the worker is stopped or the test id is not among the
    assigned entries; otherwise delete it from the remaining map, run the
    attempt, and on a completed attempt with a non-passed status record
    failedTestId and report done with the remaining entries, then stop
    (_reportDoneAndStop lines 378-383). -/
def runSpecStep (entries : List Nat) (st : WorkerState) (sc : SpecCase) :
    WorkerState :=
  if st.isStopped then st
  else if sc.sid ∈ entries then
    let st1 := { st with remaining := st.remaining.erase sc.sid }
    let r := runSpecCase sc
    let st2 := { st1 with events := st1.events ++ r.events }
    if r.stopped then { st2 with isStopped := true }
    else if r.failedSet then
      let payload : DonePayload :=
        { failedTestId := some sc.sid, remaining := st2.remaining }
      { st2 with failedTestId := some sc.sid, isStopped := true,
                 done := some payload }
    else st2
  else st

/-- WorkerRunner.run lines 111-132 restricted to the per-spec traversal:
    process the file's specs in order, then, when the worker was not
    stopped, report done with the remaining entries (_reportDone lines
    369-376). -/
def runWorker (entries : List Nat) (specs : List SpecCase) : WorkerState :=
  let st0 : WorkerState :=
    { events := [], remaining := entries, failedTestId := none,
      isStopped := false, done := none }
  let st := specs.foldl (runSpecStep entries) st0
  if st.isStopped then st
  else
    let payload : DonePayload :=
      { failedTestId := st.failedTestId, remaining := st.remaining }
    { st with done := some payload }

/-- Declared hooks of one kind along the ancestor chain, outermost suite
    first and each suite's hooks in declaration order - the order the spec
    prescribes for beforeEach hooks. -/
def outermostFirstHooks (chain : List SuiteNode) (k : HookKind) : List Nat :=
  (chain.reverse.map
    (fun s => (s.hooks.filter (fun h => h.kind == k)).map (fun h => h.hid))).flatten

/-- Trace well-formedness scanner tracking the currently open test: a
    violation (a testEnd without a matching open testBegin of the same id,
    or two overlapping tests) collapses to none; otherwise the scan carries
    the id of the test left open, if any. -/
def scanStep : Option (Option Nat) → Event → Option (Option Nat)
  | none, _ => none
  | some none, Event.testBegin i => some (some i)
  | some none, Event.testEnd _ _ _ => none
  | some (some _), Event.testBegin _ => none
  | some (some i), Event.testEnd j _ _ => if j == i then some none else none

/-- Scan a whole trace, starting with no open test. -/
def scanEvents (l : List Event) : Option (Option Nat) :=
  l.foldl scanStep (some none)

/-- Test-end events whose status is not passed. -/
def isNonPassedEnd : Event → Bool
  | Event.testEnd _ st _ => st != Status.passed
  | _ => false

/-- Test-end events of executed attempts - an attempt whose expected status
    is skipped never reaches the execution path, so expectedStatus in the
    end payload distinguishes the two - whose final status is not passed. -/
def isExecFailureEnd : Event → Bool
  | Event.testEnd _ st ex => st != Status.passed && ex != Status.skipped
  | _ => false

/-- Observable description of one environment handed to mergeEnvsImpl
    (src/unnamed/part_000): which callbacks it defines, and the args object
    its beforeEach returns (none models returning undefined). -/
structure EnvSpec where
  eid : Nat
  hasBeforeAll : Bool
  hasBeforeEach : Bool
  beforeEachResult : Option ArgMap
  hasAfterEach : Bool
  hasAfterAll : Bool
deriving DecidableEq, Repr

/-- mergeEnvsImpl lines 46-56: a single environment is returned unchanged;
    otherwise the merged beforeAll walks the forward list and calls each
    defined beforeAll. The log lists the environments invoked, in order. -/
def mergedBeforeAllLog (envs : List EnvSpec) : List Nat :=
  match envs with
  | [e] => if e.hasBeforeAll then [e.eid] else []
  | _ =>
    let forward := envs
    forward.foldl (fun acc env => if env.hasBeforeAll then acc ++ [env.eid] else acc) []

/-- mergeEnvsImpl lines 57-70: the merged afterAll walks the backward list. -/
def mergedAfterAllLog (envs : List EnvSpec) : List Nat :=
  match envs with
  | [e] => if e.hasAfterAll then [e.eid] else []
  | _ =>
    let backward := envs.reverse
    backward.foldl (fun acc env => if env.hasAfterAll then acc ++ [env.eid] else acc) []

/-- mergeEnvsImpl lines 71-80: the merged beforeEach walks the forward list. -/
def mergedBeforeEachLog (envs : List EnvSpec) : List Nat :=
  match envs with
  | [e] => if e.hasBeforeEach then [e.eid] else []
  | _ =>
    let forward := envs
    forward.foldl (fun acc env => if env.hasBeforeEach then acc ++ [env.eid] else acc) []

/-- mergeEnvsImpl lines 81-94: the merged afterEach walks the backward list. -/
def mergedAfterEachLog (envs : List EnvSpec) : List Nat :=
  match envs with
  | [e] => if e.hasAfterEach then [e.eid] else []
  | _ =>
    let backward := envs.reverse
    backward.foldl (fun acc env => if env.hasAfterEach then acc ++ [env.eid] else acc) []

/-- JS object spread of an object with a possibly-undefined object: keys of
    the second override keys of the first; spreading undefined adds nothing. -/
def spreadMerge (a : ArgMap) (b : Option ArgMap) : ArgMap :=
  match b with
  | none => a
  | some bb => a.filter (fun kv => !(bb.any (fun kv2 => kv2.1 == kv.1))) ++ bb

/-- One step of the loop of mergeEnvsImpl lines 73-78: a defined beforeEach
    contributes its result r via
    `result = result === undefined ? r : { ...result, ...r }`. -/
def beforeEachFoldStep (result : Option ArgMap) (env : EnvSpec) : Option ArgMap :=
  if env.hasBeforeEach then
    match result with
    | none => env.beforeEachResult
    | some res => some (spreadMerge res env.beforeEachResult)
  else result

/-- mergeEnvsImpl lines 71-80: the merged beforeEach result starts
    undefined and folds the step above over the forward list. -/
def mergedBeforeEachResult (envs : List EnvSpec) : Option ArgMap :=
  match envs with
  | [e] => if e.hasBeforeEach then e.beforeEachResult else none
  | _ => envs.foldl beforeEachFoldStep none

/-- Key lookup in an args object. -/
def lookupArg (m : ArgMap) (k : Nat) : Option Nat :=
  (m.find? (fun kv => kv.1 == k)).map (fun kv => kv.2)

/-- Key lookup through a possibly-undefined args object. -/
def lookupOpt (m : Option ArgMap) (k : Nat) : Option Nat :=
  match m with
  | none => none
  | some mm => lookupArg mm k

/-- Suite tree reduced to the only-markers on sub-suites and specs. -/
inductive STree where
  | leaf (only : Bool)
  | node (only : Bool) (children : List STree)

mutual

/-- Modelled from the spec: Suite._hasOnly, called by Runner._run
    (src/unnamed/part_004 line 127); the Suite class itself (src/test.ts)
    is not among the sources. Per spec.md section 4.1 step 2, an only-marker
    exists when any descendant spec or sub-suite is marked only. -/
def hasOnly : STree → Bool
  | STree.leaf o => o
  | STree.node o cs => o || hasOnlyList cs

/-- Helper for hasOnly: whether any tree in the list carries an only-marker. -/
def hasOnlyList : List STree → Bool
  | [] => false
  | t :: ts => hasOnly t || hasOnlyList ts

end

/-- Run results of Runner._run (src/unnamed/part_004 line 41). -/
inductive RunResult where
  | passed
  | failed
  | sigint
  | forbidOnly
  | noTests
  | timedout
deriving DecidableEq, Repr

/-- Observable outcome of Runner._run for the stages the claims mention:
    the returned result, whether a Dispatcher was created (the only way
    workers are spawned, line 182), and how many tests were handed to it.
    The planner stages are summarized by their outputs: `total` is the
    surviving test count and the two booleans the dispatcher results. The
    SIGINT path is not modelled. -/
structure RunTrace where
  result : RunResult
  dispatcherCreated : Bool
  testsExecuted : Nat
deriving DecidableEq, Repr

/-- Runner._run (src/unnamed/part_004 lines 95-196): the forbid-only check
    at lines 127-128 fires before any output-dir cleanup, before the
    reporter begins and before the Dispatcher is created. -/
def runnerRun (forbidOnly : Bool) (root : STree) (total : Nat)
    (listMode : Bool) (hasWorkerErrors : Bool) (anySpecNotOk : Bool) :
    RunTrace :=
  if forbidOnly && hasOnly root then
    { result := RunResult.forbidOnly, dispatcherCreated := false, testsExecuted := 0 }
  else if total == 0 then
    { result := RunResult.noTests, dispatcherCreated := false, testsExecuted := 0 }
  else if listMode then
    { result := if anySpecNotOk then RunResult.failed else RunResult.passed,
      dispatcherCreated := false, testsExecuted := 0 }
  else
    { result := if hasWorkerErrors || anySpecNotOk then RunResult.failed else RunResult.passed,
      dispatcherCreated := true, testsExecuted := total }

/-- Banner printed to stderr for the forbid-only outcome
    (src/src/cli.ts line 145). -/
def forbidOnlyBanner : String := " --forbid-only found a focused test."

/-- Banner printed to stderr for the no-tests outcome
    (src/src/cli.ts line 151). -/
def noTestsBanner : String := " no tests found."

/-- Exit code and stderr banner of the CLI. -/
structure CliOutcome where
  exitCode : Nat
  banner : Option String
deriving DecidableEq, Repr

/-- runTests result handling (src/src/cli.ts lines 141-155). -/
def cliOutcome : RunResult → CliOutcome
  | RunResult.sigint => { exitCode := 130, banner := none }
  | RunResult.forbidOnly => { exitCode := 1, banner := some forbidOnlyBanner }
  | RunResult.noTests => { exitCode := 1, banner := some noTestsBanner }
  | RunResult.failed => { exitCode := 1, banner := none }
  | _ => { exitCode := 0, banner := none }

/-- JS word characters: regex \w is ASCII letters, digits and underscore
    (and \d is contained in \w). -/
def isWordChar (c : Char) : Bool := c.isAlphanum || c == '_'

/-- A word character maps to itself, anything else to a dash. -/
def dashify (c : Char) : Char := if isWordChar c then c else '-'

/-- Collapse every run of adjacent dashes to a single dash. Together with
    dashify this implements the regex replace of /[^\w\d]+/g with a dash:
    each maximal run of non-word characters becomes one dash, and no input
    dash is a word character, so collapsing after the pointwise map is
    exactly the run-wise replacement. -/
def collapseDashes : List Char → List Char
  | [] => []
  | [c] => [c]
  | c :: d :: rest =>
    if c == '-' && d == '-' then collapseDashes (d :: rest)
    else c :: collapseDashes (d :: rest)

/-- Regex replace of /[^\w\d]+/g with a dash (workerRunner.ts line 421). -/
def sanitizeChars (l : List Char) : List Char := collapseDashes (l.map dashify)

/-- Sanitized spec title (workerRunner.ts line 421). -/
def sanitizeTitle (s : String) : String := String.mk (sanitizeChars s.data)

/-- Node path.join of two segments on the fragment the runner exercises:
    empty segments are ignored, the rest joined with a slash. -/
def joinSeg (a b : String) : String :=
  if a == "" then b else if b == "" then a else a ++ "/" ++ b

/-- Node path.join of a segment list. -/
def pathJoin (segs : List String) : String := segs.foldl joinSeg ""

/-- The four strings matched by the regex /\.(spec|test)\.(js|ts)/. -/
def specExtPatterns : List (List Char) :=
  [".spec.js".data, ".spec.ts".data, ".test.js".data, ".test.ts".data]

/-- JS String.replace with the regex above and an empty replacement
    (workerRunner.ts line 420): remove the first occurrence only. -/
def stripSpecExtChars : List Char → List Char
  | [] => []
  | c :: rest =>
    match specExtPatterns.find? (fun p => p.isPrefixOf (c :: rest)) with
    | some p => (c :: rest).drop p.length
    | none => c :: stripSpecExtChars rest

/-- String version of the extension removal. -/
def stripSpecExt (s : String) : String := String.mk (stripSpecExtChars s.data)

/-- Node path.relative modelled for the case the runner exercises: the
    target lies underneath the base directory. -/
def pathRelative (base target : String) : String :=
  let baseSlash := base.data ++ ['/']
  if baseSlash.isPrefixOf target.data then String.mk (target.data.drop baseSlash.length)
  else target

/-- Configuration fields the path computations read. -/
structure PathConfig where
  testDir : String
  outputDir : String
  snapshotDir : String
deriving DecidableEq, Repr

/-- TestInfo fields the path computations read. -/
structure PathInfo where
  file : String
  title : String
  retry : Nat
  repeatEachIndex : Nat
deriving DecidableEq, Repr

/-- workerRunner.ts relativeArtifactsPath lines 419-423: relative file path
    with the spec/test extension removed, the sanitized title, and the
    suite path segment (the run-list alias, test.suiteTitle at line 208). -/
def relativeArtifactsPath (cfg : PathConfig) (info : PathInfo)
    (suitePathSegment : String) : String :=
  let relativePath := pathRelative cfg.testDir (stripSpecExt info.file)
  let sanitizedTitle := sanitizeTitle info.title
  pathJoin [relativePath, sanitizedTitle, suitePathSegment]

/-- workerRunner.ts outputPath lines 425-433: the base directory in which
    outputPath(...) resolves segments. -/
def outputPathBase (cfg : PathConfig) (info : PathInfo)
    (suitePathSegment : String) : String :=
  let retrySuffix := if info.retry != 0 then "-retry" ++ toString info.retry else ""
  let repeatEachSuffix :=
    if info.repeatEachIndex != 0 then "-repeat" ++ toString info.repeatEachIndex else ""
  pathJoin [cfg.outputDir, relativeArtifactsPath cfg info suitePathSegment]
    ++ retrySuffix ++ repeatEachSuffix

/-- workerRunner.ts snapshotPath lines 435-440: the base directory in which
    snapshotPath(...) resolves segments. -/
def snapshotPathBase (cfg : PathConfig) (info : PathInfo)
    (suitePathSegment : String) : String :=
  pathJoin [cfg.testDir, cfg.snapshotDir, relativeArtifactsPath cfg info suitePathSegment]

/-- The output path exactly as the claim words it: outputDir, file-relative
    path without extension, sanitized title, and the retry and repeat
    suffixes - with no suite path segment. -/
def specClaimedOutputPath (cfg : PathConfig) (info : PathInfo) : String :=
  let retrySuffix := if info.retry != 0 then "-retry" ++ toString info.retry else ""
  let repeatEachSuffix :=
    if info.repeatEachIndex != 0 then "-repeat" ++ toString info.repeatEachIndex else ""
  pathJoin [cfg.outputDir, pathRelative cfg.testDir (stripSpecExt info.file),
    sanitizeTitle info.title] ++ retrySuffix ++ repeatEachSuffix

/-- A spec behaviour template: no environment callbacks, passing body, no
    timeouts and no interruptions. -/
def plainSpec (i : Nat) (chain : List SuiteNode) : SpecCase :=
  { sid := i, chain := chain, envBeforeEach := EnvBeforeEachB.absent,
    envAfterEach := none, body := none, envPhaseTimesOut := false,
    beforePhaseTimesOut := false, afterPhaseTimesOut := false,
    stopAfterEnvPhase := false, stopAfterBeforePhase := false,
    stopAfterAfterPhase := false }

/-- Suite with two beforeEach hooks - the first throws - and one afterEach. -/
def suiteTwoBeforeEach : SuiteNode :=
  { hooks :=
      [ { kind := HookKind.beforeEach, hid := 0, throws := some (Err.failure 7) },
        { kind := HookKind.beforeEach, hid := 1, throws := none },
        { kind := HookKind.afterEach, hid := 2, throws := none } ],
    anns := [] }

/-- Attempt in which the first of two beforeEach hooks throws, with an
    environment afterEach present. -/
def specHookThrows : SpecCase :=
  { plainSpec 0 [suiteTwoBeforeEach] with envAfterEach := some none }

/-- Suite with one afterEach hook only. -/
def suiteOneAfterEach : SuiteNode :=
  { hooks := [ { kind := HookKind.afterEach, hid := 3, throws := none } ],
    anns := [] }

/-- Attempt in which the environment beforeEach throws, with an ancestor
    afterEach hook and an environment afterEach present. -/
def specEnvThrows : SpecCase :=
  { plainSpec 1 [suiteOneAfterEach] with
      envBeforeEach := EnvBeforeEachB.throws (Err.failure 5),
      envAfterEach := some none }

/-- Attempt whose before phase (hooks plus body) exceeds the deadline. -/
def specBodyTimesOut : SpecCase :=
  { plainSpec 2 [suiteOneAfterEach] with
      envAfterEach := some none, beforePhaseTimesOut := true }

/-- Suite carrying a skip annotation. -/
def suiteSkipAnn : SuiteNode :=
  { hooks := [ { kind := HookKind.beforeEach, hid := 4, throws := none } ],
    anns := [AnnKind.skip] }

/-- Attempt under a skip-annotated suite. -/
def specSkipAnnotated : SpecCase := plainSpec 3 [suiteSkipAnn]

/-- A second attempt under the same skip-annotated suite. -/
def specSkipAnnotated2 : SpecCase := plainSpec 6 [suiteSkipAnn]

/-- Attempt interrupted by an external stop while awaiting the environment
    beforeEach race. -/
def specStopMidAttempt : SpecCase :=
  { plainSpec 4 [] with stopAfterEnvPhase := true }

/-- Suite carrying a fail annotation. -/
def suiteFailAnn : SuiteNode := { hooks := [], anns := [AnnKind.fail] }

/-- Attempt with expected status failed whose body throws: the attempt ends
    with its expected status. -/
def specExpectedFailure : SpecCase :=
  { plainSpec 5 [suiteFailAnn] with body := some (Err.failure 3) }

/-- Fresh worker state holding one assigned entry. -/
def wstate8 : WorkerState :=
  { events := [], remaining := [5], failedTestId := none,
    isStopped := false, done := none }

/-- Concrete path configuration. -/
def cfg9 : PathConfig :=
  { testDir := "tests", outputDir := "test-results", snapshotDir := "__snapshots__" }

/-- Concrete test info on its first retry. -/
def info9 : PathInfo :=
  { file := "tests/a.spec.ts", title := "my test", retry := 1, repeatEachIndex := 0 }

/-- Concrete suite tree with a focused spec. -/
def treeWithOnly : STree := STree.node false [STree.leaf false, STree.leaf true]

/-- Worker state invariant for C10: the remaining entries are distinct and
    never began, every assigned entry that never began is still among the
    remaining entries (the remaining map is exactly the not-yet-executed
    entries), a running worker has emitted no executed-failure end and no
    done, at most one executed-failure end ever appears, a done payload
    snapshots the remaining list, and an executed-failure end implies the
    worker stopped with a done report. -/
def c10Inv (entries : List Nat) (st : WorkerState) : Prop :=
  st.remaining.Nodup
    ∧ (∀ i ∈ st.remaining, Event.testBegin i ∉ st.events)
    ∧ (∀ i ∈ entries, Event.testBegin i ∉ st.events → i ∈ st.remaining)
    ∧ (st.isStopped = false →
        st.events.countP isExecFailureEnd = 0 ∧ st.done = none)
    ∧ st.events.countP isExecFailureEnd ≤ 1
    ∧ (∀ d, st.done = some d → d.remaining = st.remaining)
    ∧ (0 < st.events.countP isExecFailureEnd →
        st.isStopped = true ∧ st.done.isSome = true)

/-- Folding an append-accumulator produces the flattened map. -/
theorem foldl_append_flatten {α β : Type} (f : α → List β) :
    ∀ (l : List α) (acc : List β),
      l.foldl (fun acc s => acc ++ f s) acc = acc ++ (l.map f).flatten := by
  intro l
  induction l with
  | nil => intro acc; simp
  | cons x xs ih => intro acc; simp [ih, List.append_assoc]

/-- The hook loop of _runHooks invokes exactly the listed hooks, in order. -/
theorem runHookLoop_log (hooks : List Hook) :
    (runHookLoop hooks).1 = hooks.map (fun h => h.hid) := by
  have aux : ∀ (l : List Hook) (acc : List Nat × Option Err),
      (l.foldl (fun acc h => (acc.1 ++ [h.hid], acc.2 <|> h.throws)) acc).1
        = acc.1 ++ l.map (fun h => h.hid) := by
    intro l
    induction l with
    | nil => intro acc; simp
    | cons x xs ih => intro acc; simp [ih]
  simpa using aux hooks ([], none)

/-- The beforeEach hook list built by _runHooks is the outermost-first
    declaration-order list. -/
theorem hooksToRun_beforeEach_order (chain : List SuiteNode) :
    (hooksToRun chain HookKind.beforeEach).map (fun h => h.hid)
      = outermostFirstHooks chain HookKind.beforeEach := by
  simp only [hooksToRun, outermostFirstHooks,
    foldl_append_flatten
      (fun (s : SuiteNode) =>
        (s.hooks.filter (fun h => h.kind == HookKind.beforeEach)).reverse)]
  simp [List.map_flatten, List.reverse_flatten, List.map_reverse,
    Function.comp_def]

/-- Folding a conditional-append accumulator over environments produces the
    filtered map. -/
theorem foldl_filter_log (has : EnvSpec → Bool) :
    ∀ (l : List EnvSpec) (acc : List Nat),
      l.foldl (fun acc env => if has env then acc ++ [env.eid] else acc) acc
        = acc ++ (l.filter has).map (fun e => e.eid) := by
  intro l
  induction l with
  | nil => intro acc; simp
  | cons x xs ih =>
    intro acc
    by_cases hx : has x = true
    · simp [hx, ih]
    · simp only [Bool.not_eq_true] at hx
      simp [hx, ih]

/-- C6. For every run with forbidOnly set in which some spec or suite is
    marked only, the run returns the distinguished forbid-only outcome
    before creating a Dispatcher (so no worker is spawned and no test is
    executed), and the CLI prints the distinct forbid-only stderr banner
    and exits with code 1. -/
theorem C6_forbid_only (root : STree) (total : Nat) (listMode : Bool)
    (hasWorkerErrors : Bool) (anySpecNotOk : Bool)
    (h : hasOnly root = true) :
    (runnerRun true root total listMode hasWorkerErrors anySpecNotOk).result
        = RunResult.forbidOnly
      ∧ (runnerRun true root total listMode hasWorkerErrors anySpecNotOk).dispatcherCreated
        = false
      ∧ (runnerRun true root total listMode hasWorkerErrors anySpecNotOk).testsExecuted
        = 0
      ∧ (cliOutcome (runnerRun true root total listMode hasWorkerErrors anySpecNotOk).result).exitCode
        = 1
      ∧ (cliOutcome (runnerRun true root total listMode hasWorkerErrors anySpecNotOk).result).banner
        = some forbidOnlyBanner
      ∧ forbidOnlyBanner ≠ noTestsBanner := by
  simp [runnerRun, h, cliOutcome]
  decide

/-- C6 witness: a concrete focused tree triggers the forbid-only outcome. -/
theorem C6_forbid_only_witness :
    hasOnly treeWithOnly = true
      ∧ (runnerRun true treeWithOnly 2 false false false).result = RunResult.forbidOnly
      ∧ (runnerRun true treeWithOnly 2 false false false).dispatcherCreated = false := by
  refine ⟨by decide, ?_, ?_⟩
  · exact (C6_forbid_only treeWithOnly 2 false false false (by decide)).1
  · exact (C6_forbid_only treeWithOnly 2 false false false (by decide)).2.1

/-- Associativity of the option fallback. -/
theorem option_or_assoc (x y z : Option Nat) :
    (x.or y).or z = x.or (y.or z) := by
  cases x <;> cases y <;> simp [Option.or]

/-- Mapping distributes over the option fallback. -/
theorem option_map_or (f : Nat × Nat → Nat) (x y : Option (Nat × Nat)) :
    Option.map f (x.or y) = (Option.map f x).or (Option.map f y) := by
  cases x <;> simp [Option.or]

/-- Lookup distributes over list append, searching the left part first. -/
theorem lookupArg_append (a b : ArgMap) (k : Nat) :
    lookupArg (a ++ b) k = (lookupArg a k).or (lookupArg b k) := by
  simp [lookupArg, List.find?_append, option_map_or]

/-- A key absent from every entry looks up to none. -/
theorem lookupArg_eq_none (bb : ArgMap) (k : Nat)
    (h : bb.any (fun kv2 => kv2.1 == k) = false) : lookupArg bb k = none := by
  simp only [lookupArg, Option.map_eq_none']
  rw [List.find?_eq_none]
  intro x hx hpx
  have : bb.any (fun kv2 => kv2.1 == k) = true :=
    List.any_eq_true.mpr ⟨x, hx, hpx⟩
  simp [this] at h

/-- A key present in some entry looks up to a value. -/
theorem lookupArg_isSome (bb : ArgMap) (k : Nat)
    (h : bb.any (fun kv2 => kv2.1 == k) = true) :
    (lookupArg bb k).isSome = true := by
  rcases List.any_eq_true.mp h with ⟨kv2, hmem, hp⟩
  simp only [lookupArg, Option.isSome_map]
  cases hfind : bb.find? (fun kv2 => kv2.1 == k) with
  | none =>
    have := List.find?_eq_none.mp hfind kv2 hmem
    simp_all
  | some v => rfl

/-- Filtering with a predicate that keeps every entry of the looked-up key
    does not change the lookup. -/
theorem lookupArg_filter (q : Nat × Nat → Bool) (k : Nat)
    (h : ∀ kv : Nat × Nat, kv.1 = k → q kv = true) :
    ∀ a : ArgMap, lookupArg (a.filter q) k = lookupArg a k := by
  intro a
  induction a with
  | nil => simp
  | cons kv a ih =>
    by_cases hk : kv.1 = k
    · have hq := h kv hk
      simp [List.filter_cons, hq, lookupArg, List.find?_cons, hk]
    · have hkv : (kv.1 == k) = false := by simpa using hk
      by_cases hq : q kv = true
      · simpa [List.filter_cons, hq, lookupArg, List.find?_cons, hkv] using ih
      · simp only [Bool.not_eq_true] at hq
        simpa [List.filter_cons, hq, lookupArg, List.find?_cons, hkv] using ih

/-- Lookup in the JS spread of a defined object with a possibly-undefined
    one: keys of the second override keys of the first. -/
theorem lookup_spreadMerge (b : Option ArgMap) (k : Nat) (a : ArgMap) :
    lookupArg (spreadMerge a b) k = (lookupOpt b k).or (lookupArg a k) := by
  cases b with
  | none => simp [spreadMerge, lookupOpt]
  | some bb =>
    simp only [spreadMerge, lookupOpt, lookupArg_append]
    by_cases hin : bb.any (fun kv2 => kv2.1 == k) = true
    · have hleft :
          lookupArg (a.filter (fun kv => !(bb.any (fun kv2 => kv2.1 == kv.1)))) k
            = none := by
        apply lookupArg_eq_none
        rw [List.any_eq_false]
        intro kv hkv
        rcases List.mem_filter.mp hkv with ⟨hmem, hq⟩
        intro hpk
        have hk : kv.1 = k := by simpa using hpk
        rw [hk] at hq
        simp [hin] at hq
      rw [hleft]
      rcases Option.isSome_iff_exists.mp (lookupArg_isSome bb k hin) with ⟨v, hv⟩
      rw [hv]
      simp [Option.or]
    · simp only [Bool.not_eq_true] at hin
      rw [lookupArg_eq_none bb k hin]
      rw [lookupArg_filter _ k (fun kv hk => by simp [hk, hin]) a]
      cases lookupArg a k <;> simp [Option.or]

/-- Lookup through one step of the mergeEnvsImpl beforeEach fold: the new
    result has the key priority of this step's environment. -/
theorem mergedFold_step_lookup (acc : Option ArgMap) (env : EnvSpec) (k : Nat)
    (he : env.hasBeforeEach = true) :
    lookupOpt (beforeEachFoldStep acc env) k
      = (lookupOpt env.beforeEachResult k).or (lookupOpt acc k) := by
  cases acc with
  | none => simp [beforeEachFoldStep, he, lookupOpt]
  | some res =>
    simpa [beforeEachFoldStep, he, lookupOpt] using
      lookup_spreadMerge env.beforeEachResult k res

/-- Lookup through the mergeEnvsImpl beforeEach fold: the value of a key
    comes from the last defined result containing it, with the accumulator
    at lowest priority. -/
theorem mergedFold_lookup (k : Nat) :
    ∀ (l : List EnvSpec) (acc : Option ArgMap),
      lookupOpt (l.foldl beforeEachFoldStep acc) k
        = (((l.filter (fun e => e.hasBeforeEach)).map
              (fun e => e.beforeEachResult)).reverse.findSome?
                (fun r => lookupOpt r k)).or (lookupOpt acc k) := by
  intro l
  induction l with
  | nil => intro acc; simp
  | cons e l ih =>
    intro acc
    by_cases he : e.hasBeforeEach = true
    · have hsingle :
          List.findSome? (fun r => lookupOpt r k) [e.beforeEachResult]
            = lookupOpt e.beforeEachResult k := by
        cases h : lookupOpt e.beforeEachResult k <;> simp [List.findSome?, h]
      simp only [List.foldl_cons, List.filter_cons, he, if_true, List.map_cons,
        List.reverse_cons]
      rw [ih, mergedFold_step_lookup acc e k he, List.findSome?_append, hsingle,
        option_or_assoc]
    · simp only [Bool.not_eq_true] at he
      have hstep : beforeEachFoldStep acc e = acc := by
        simp [beforeEachFoldStep, he]
      simp only [List.foldl_cons, List.filter_cons, he, Bool.false_eq_true,
        if_false, hstep]
      exact ih acc

/-- C7. For every list of composed environments, the merged environment of
    mergeEnvsImpl invokes beforeAll and beforeEach of each defining
    environment in forward composition order and afterEach and afterAll in
    reverse order, and the merged beforeEach result is the shallow merge of
    the individual results: the value of every key comes from the last
    environment whose beforeEach result defines it. -/
theorem C7_env_composition (envs : List EnvSpec) :
    mergedBeforeAllLog envs
        = (envs.filter (fun e => e.hasBeforeAll)).map (fun e => e.eid)
      ∧ mergedBeforeEachLog envs
        = (envs.filter (fun e => e.hasBeforeEach)).map (fun e => e.eid)
      ∧ mergedAfterEachLog envs
        = ((envs.filter (fun e => e.hasAfterEach)).map (fun e => e.eid)).reverse
      ∧ mergedAfterAllLog envs
        = ((envs.filter (fun e => e.hasAfterAll)).map (fun e => e.eid)).reverse
      ∧ ∀ k, lookupOpt (mergedBeforeEachResult envs) k
        = ((envs.filter (fun e => e.hasBeforeEach)).map
            (fun e => e.beforeEachResult)).reverse.findSome?
              (fun r => lookupOpt r k) := by
  rcases envs with _ | ⟨e, _ | ⟨f, rest⟩⟩
  · refine ⟨by simp [mergedBeforeAllLog], by simp [mergedBeforeEachLog],
      by simp [mergedAfterEachLog], by simp [mergedAfterAllLog], ?_⟩
    intro k
    simp [mergedBeforeEachResult, lookupOpt]
  · refine ⟨?_, ?_, ?_, ?_, ?_⟩
    · by_cases h : e.hasBeforeAll = true <;>
        simp_all [mergedBeforeAllLog]
    · by_cases h : e.hasBeforeEach = true <;>
        simp_all [mergedBeforeEachLog]
    · by_cases h : e.hasAfterEach = true <;>
        simp_all [mergedAfterEachLog]
    · by_cases h : e.hasAfterAll = true <;>
        simp_all [mergedAfterAllLog]
    · intro k
      by_cases h : e.hasBeforeEach = true
      · cases hv : lookupOpt e.beforeEachResult k <;>
          simp [mergedBeforeEachResult, h, List.findSome?, hv]
      · simp only [Bool.not_eq_true] at h
        simp [mergedBeforeEachResult, h, lookupOpt]
  · refine ⟨?_, ?_, ?_, ?_, ?_⟩
    · simpa [mergedBeforeAllLog] using
        foldl_filter_log (fun e => e.hasBeforeAll) (e :: f :: rest) []
    · simpa [mergedBeforeEachLog] using
        foldl_filter_log (fun e => e.hasBeforeEach) (e :: f :: rest) []
    · have := foldl_filter_log (fun e => e.hasAfterEach) (e :: f :: rest).reverse []
      simp only [mergedAfterEachLog]
      rw [this]
      simp only [List.nil_append, List.filter_reverse, List.map_reverse]
    · have := foldl_filter_log (fun e => e.hasAfterAll) (e :: f :: rest).reverse []
      simp only [mergedAfterAllLog]
      rw [this]
      simp only [List.nil_append, List.filter_reverse, List.map_reverse]
    · intro k
      have := mergedFold_lookup k (e :: f :: rest) none
      simpa [mergedBeforeEachResult, lookupOpt] using this

/-- A path with a separator appended is never the empty string. -/
theorem append_slash_ne_empty (a b : String) : a ++ ("/" ++ b) ≠ "" := by
  intro h
  have hl := congrArg String.length h
  simp [String.length_append] at hl
  exact absurd hl.2.1 (by decide)

/-- Segment joining is associative. -/
theorem joinSeg_assoc (a b c : String) :
    joinSeg (joinSeg a b) c = joinSeg a (joinSeg b c) := by
  by_cases ha : a = ""
  · simp [joinSeg, ha]
  · by_cases hb : b = ""
    · simp [joinSeg, ha, hb]
    · have hab := append_slash_ne_empty a b
      by_cases hc : c = ""
      · simp [joinSeg, ha, hb, hc, hab, String.append_assoc]
      · have hbc := append_slash_ne_empty b c
        simp [joinSeg, ha, hb, hc, hab, hbc, String.append_assoc]

/-- The empty string is a right unit for segment joining. -/
theorem joinSeg_empty_right (a : String) : joinSeg a "" = a := by
  by_cases ha : a = "" <;> simp [joinSeg, ha]

/-- Folding segment joining from any seed equals joining the seed with the
    folded rest. -/
theorem foldl_joinSeg :
    ∀ (l : List String) (a : String), l.foldl joinSeg a = joinSeg a (pathJoin l) := by
  intro l
  induction l with
  | nil => intro a; simp [pathJoin, joinSeg_empty_right]
  | cons x xs ih =>
    intro a
    have hx : joinSeg "" x = x := by simp [joinSeg]
    calc (x :: xs).foldl joinSeg a
        = xs.foldl joinSeg (joinSeg a x) := by simp
      _ = joinSeg (joinSeg a x) (pathJoin xs) := ih (joinSeg a x)
      _ = joinSeg a (joinSeg x (pathJoin xs)) := joinSeg_assoc a x (pathJoin xs)
      _ = joinSeg a (xs.foldl joinSeg x) := by rw [ih x]
      _ = joinSeg a (pathJoin (x :: xs)) := by simp [pathJoin, hx]

/-- A nested path join in the last position flattens. -/
theorem pathJoin_append_last (front : List String) (l : List String) :
    pathJoin (front ++ [pathJoin l]) = pathJoin (front ++ l) := by
  simp only [pathJoin, List.foldl_append]
  rw [foldl_joinSeg l (front.foldl joinSeg "")]
  simp [joinSeg_empty_right, pathJoin]

/-- C9 counterexample: with a non-empty suite path segment (the run-list
    alias), the computed output path contains a suite directory level that
    the claimed template omits, so the two differ; the snapshot path is
    also shown for the record. -/
theorem C9_counterexample :
    outputPathBase cfg9 info9 "suiteA" ≠ specClaimedOutputPath cfg9 info9
      ∧ outputPathBase cfg9 info9 "suiteA" = "test-results/a/my-test/suiteA-retry1"
      ∧ specClaimedOutputPath cfg9 info9 = "test-results/a/my-test-retry1"
      ∧ snapshotPathBase cfg9 info9 "suiteA" = "tests/__snapshots__/a/my-test/suiteA" := by
  refine ⟨by decide, by decide, by decide, by decide⟩

/-- C9 (amended). For every configuration and test info, the output base
    path is outputDir / file-relative-path-without-extension /
    sanitized-title / suite-path-segment, with -retryN appended exactly when
    the retry number N is nonzero and -repeatN appended exactly when the
    repeat index N is nonzero; the snapshot base path uses the parallel
    template under the snapshot directory with no retry or repeat suffix,
    so all attempts of a spec share one snapshot path. -/
theorem C9_output_path_amended (cfg : PathConfig) (info : PathInfo) (seg : String) :
    outputPathBase cfg info seg
        = pathJoin [cfg.outputDir, pathRelative cfg.testDir (stripSpecExt info.file),
            sanitizeTitle info.title, seg]
          ++ (if info.retry != 0 then "-retry" ++ toString info.retry else "")
          ++ (if info.repeatEachIndex != 0 then "-repeat" ++ toString info.repeatEachIndex else "")
      ∧ snapshotPathBase cfg info seg
        = pathJoin [cfg.testDir, cfg.snapshotDir,
            pathRelative cfg.testDir (stripSpecExt info.file),
            sanitizeTitle info.title, seg]
      ∧ (∀ r1 q1 r2 q2 : Nat,
          snapshotPathBase cfg { info with retry := r1, repeatEachIndex := q1 } seg
            = snapshotPathBase cfg { info with retry := r2, repeatEachIndex := q2 } seg) := by
  refine ⟨?_, ?_, ?_⟩
  · have h := pathJoin_append_last [cfg.outputDir]
      [pathRelative cfg.testDir (stripSpecExt info.file), sanitizeTitle info.title, seg]
    simp only [List.cons_append, List.nil_append] at h
    simp only [outputPathBase, relativeArtifactsPath, h]
  · have h := pathJoin_append_last [cfg.testDir, cfg.snapshotDir]
      [pathRelative cfg.testDir (stripSpecExt info.file), sanitizeTitle info.title, seg]
    simp only [List.cons_append, List.nil_append] at h
    simp only [snapshotPathBase, relativeArtifactsPath, h]
  · intro r1 q1 r2 q2
    simp only [snapshotPathBase, relativeArtifactsPath]

/-- A successful environment beforeEach yields args and leaves the info
    untouched. -/
theorem runEnvBeforeEach_ok (b : EnvBeforeEachB) (info : TestInfoM)
    (h : envBeforeEachSucceeds b = true) :
    (runEnvBeforeEach b info).1.isNone = false
      ∧ (runEnvBeforeEach b info).2 = info := by
  cases b with
  | absent => simp [runEnvBeforeEach]
  | returns a => cases a <;> simp [runEnvBeforeEach]
  | throws e => simp [envBeforeEachSucceeds] at h

/-- The environment beforeEach never changes the expected status. -/
theorem runEnvBeforeEach_expected (b : EnvBeforeEachB) (info : TestInfoM) :
    (runEnvBeforeEach b info).2.expectedStatus = info.expectedStatus := by
  cases b with
  | absent => simp [runEnvBeforeEach]
  | returns a => cases a <;> simp [runEnvBeforeEach]
  | throws e => simp [runEnvBeforeEach]

/-- The before phase never changes the expected status. -/
theorem runTestWithBeforeHooks_expected (sc : SpecCase) (info : TestInfoM) :
    (runTestWithBeforeHooks sc info).1.expectedStatus = info.expectedStatus := by
  simp only [runTestWithBeforeHooks]
  cases hr : (runHookLoop (hooksToRun sc.chain HookKind.beforeEach)).2 with
  | none =>
    split
    · rfl
    · cases sc.body with
      | none => rfl
      | some e => cases e <;> rfl
  | some e =>
    cases e <;>
      · split
        · rfl
        · cases sc.body with
          | none => rfl
          | some e2 => cases e2 <;> rfl

/-- The after phase never changes the expected status. -/
theorem runAfterHooks_expected (sc : SpecCase) (info : TestInfoM) :
    (runAfterHooks sc info).1.expectedStatus = info.expectedStatus := by
  simp only [runAfterHooks]
  cases hr : (runHookLoop (hooksToRun sc.chain HookKind.afterEach)).2 with
  | none =>
    rcases sc.envAfterEach with _ | ⟨_ | e⟩ <;>
      · simp
        repeat' split
        all_goals rfl
  | some e =>
    cases e <;>
      rcases sc.envAfterEach with _ | ⟨_ | e2⟩ <;>
        · simp
          repeat' split
          all_goals rfl

/-- The after phase logs exactly the afterEach hooks of the chain, in the
    order _runHooks runs them. -/
theorem runAfterHooks_log (sc : SpecCase) (info : TestInfoM) :
    (runAfterHooks sc info).2.1
      = (hooksToRun sc.chain HookKind.afterEach).map (fun h => h.hid) := by
  simp only [runAfterHooks]
  rcases sc.envAfterEach with _ | ⟨_ | e⟩ <;> simp [runHookLoop_log]

/-- The after phase calls the environment afterEach exactly when it is
    defined. -/
theorem runAfterHooks_envRan (sc : SpecCase) (info : TestInfoM) :
    (runAfterHooks sc info).2.2 = sc.envAfterEach.isSome := by
  simp only [runAfterHooks]
  rcases sc.envAfterEach with _ | ⟨_ | e⟩ <;> simp

/-- The after phase never overwrites a non-passed status. -/
theorem runAfterHooks_frozen (sc : SpecCase) (info : TestInfoM)
    (h : info.status ≠ Status.passed) :
    (runAfterHooks sc info).1 = info := by
  have hb : (info.status == Status.passed) = false := by simpa using h
  simp only [runAfterHooks]
  cases hr : (runHookLoop (hooksToRun sc.chain HookKind.afterEach)).2 with
  | none => rcases sc.envAfterEach with _ | ⟨_ | e⟩ <;> simp [hb]
  | some e =>
    cases e <;> rcases sc.envAfterEach with _ | ⟨_ | e2⟩ <;> simp [hb]

/-- A before phase whose hook loop captured an ordinary error: every hook
    still ran, the attempt is failed with that error, and the body did not
    run. -/
theorem runTestWithBeforeHooks_hookFailure (sc : SpecCase) (info : TestInfoM)
    (m : Nat)
    (h : (runHookLoop (hooksToRun sc.chain HookKind.beforeEach)).2
        = some (Err.failure m)) :
    runTestWithBeforeHooks sc info
      = ({ info with status := Status.failed, error := some (Err.failure m) },
         (hooksToRun sc.chain HookKind.beforeEach).map (fun h => h.hid), false) := by
  simp [runTestWithBeforeHooks, h, runHookLoop_log]

/-- The before phase always logs exactly the beforeEach hooks of the chain,
    in the order _runHooks runs them. -/
theorem runTestWithBeforeHooks_log (sc : SpecCase) (info : TestInfoM) :
    (runTestWithBeforeHooks sc info).2.1
      = (hooksToRun sc.chain HookKind.beforeEach).map (fun h => h.hid) := by
  simp only [runTestWithBeforeHooks]
  cases hr : (runHookLoop (hooksToRun sc.chain HookKind.beforeEach)).2 with
  | none =>
    split
    · simp [runHookLoop_log]
    · cases sc.body with
      | none => simp [runHookLoop_log]
      | some e => cases e <;> simp [runHookLoop_log]
  | some e =>
    cases e <;>
      · split
        · simp [runHookLoop_log]
        · cases sc.body with
          | none => simp [runHookLoop_log]
          | some e2 => cases e2 <;> simp [runHookLoop_log]

/-- The executed path of _runSpec with no timeout and no interruption: the
    attempt runs the before phase and then the after phase against the
    original deadline and emits testEnd with the resulting status. -/
theorem runSpecCase_executed (sc : SpecCase)
    (hexp : computeExpectedStatus (collectAnnotations sc.chain) ≠ Status.skipped)
    (henv : envBeforeEachSucceeds sc.envBeforeEach = true)
    (ht1 : sc.envPhaseTimesOut = false) (ht2 : sc.beforePhaseTimesOut = false)
    (ht3 : sc.afterPhaseTimesOut = false)
    (hs1 : sc.stopAfterEnvPhase = false) (hs2 : sc.stopAfterBeforePhase = false)
    (hs3 : sc.stopAfterAfterPhase = false) :
    runSpecCase sc =
      { events := [Event.testBegin sc.sid,
          Event.testEnd sc.sid
            ((runAfterHooks sc (runTestWithBeforeHooks sc (initTestInfo sc)).1).1).status
            ((runAfterHooks sc (runTestWithBeforeHooks sc (initTestInfo sc)).1).1).expectedStatus],
        beforeLog := (runTestWithBeforeHooks sc (initTestInfo sc)).2.1,
        bodyRan := (runTestWithBeforeHooks sc (initTestInfo sc)).2.2,
        afterLog := (runAfterHooks sc (runTestWithBeforeHooks sc (initTestInfo sc)).1).2.1,
        envAfterRan := (runAfterHooks sc (runTestWithBeforeHooks sc (initTestInfo sc)).1).2.2,
        afterDeadline := some DeadlineKind.original,
        info := (runAfterHooks sc (runTestWithBeforeHooks sc (initTestInfo sc)).1).1,
        stopped := false,
        failedSet :=
          ((runAfterHooks sc (runTestWithBeforeHooks sc (initTestInfo sc)).1).1).status
            != Status.passed } := by
  have hbeq : ((initTestInfo sc).expectedStatus == Status.skipped) = false := by
    simp only [initTestInfo]
    simpa using hexp
  obtain ⟨hN, hI⟩ := runEnvBeforeEach_ok sc.envBeforeEach (initTestInfo sc) henv
  simp [runSpecCase, hbeq, ht1, ht2, ht3, hs1, hs2, hs3, hN, hI]

/-- The path of _runSpec in which the before phase exceeds the deadline:
    the status becomes timedOut and the after phase is raced against a
    fresh full-length deadline. -/
theorem runSpecCase_beforeTimeout (sc : SpecCase)
    (hexp : computeExpectedStatus (collectAnnotations sc.chain) ≠ Status.skipped)
    (henv : envBeforeEachSucceeds sc.envBeforeEach = true)
    (ht1 : sc.envPhaseTimesOut = false) (ht2 : sc.beforePhaseTimesOut = true)
    (hs1 : sc.stopAfterEnvPhase = false) (hs2 : sc.stopAfterBeforePhase = false)
    (hs3 : sc.stopAfterAfterPhase = false) :
    runSpecCase sc =
      { events := [Event.testBegin sc.sid,
          Event.testEnd sc.sid
            ((if sc.afterPhaseTimesOut then
                { initTestInfo sc with status := Status.timedOut }
              else (runAfterHooks sc
                { initTestInfo sc with status := Status.timedOut }).1)).status
            ((if sc.afterPhaseTimesOut then
                { initTestInfo sc with status := Status.timedOut }
              else (runAfterHooks sc
                { initTestInfo sc with status := Status.timedOut }).1)).expectedStatus],
        beforeLog := [], bodyRan := false,
        afterLog := if sc.afterPhaseTimesOut then []
          else (runAfterHooks sc
            { initTestInfo sc with status := Status.timedOut }).2.1,
        envAfterRan := if sc.afterPhaseTimesOut then false
          else (runAfterHooks sc
            { initTestInfo sc with status := Status.timedOut }).2.2,
        afterDeadline := some DeadlineKind.fresh,
        info := if sc.afterPhaseTimesOut then
            { initTestInfo sc with status := Status.timedOut }
          else (runAfterHooks sc
            { initTestInfo sc with status := Status.timedOut }).1,
        stopped := false,
        failedSet :=
          ((if sc.afterPhaseTimesOut then
              { initTestInfo sc with status := Status.timedOut }
            else (runAfterHooks sc
              { initTestInfo sc with status := Status.timedOut }).1)).status
            != Status.passed } := by
  have hbeq : ((initTestInfo sc).expectedStatus == Status.skipped) = false := by
    simp only [initTestInfo]
    simpa using hexp
  obtain ⟨hN, hI⟩ := runEnvBeforeEach_ok sc.envBeforeEach (initTestInfo sc) henv
  have hst : (initTestInfo sc).status = Status.passed := rfl
  simp [runSpecCase, hbeq, ht1, ht2, hs1, hs2, hs3, hN, hI, hst]

/-- Every attempt either is interrupted after emitting only its testBegin -
    with the worker stopped and no failedTestId recorded - or emits exactly
    testBegin followed by testEnd carrying its final and expected status,
    with failedTestId recorded exactly for a non-passed status on a path
    other than the expected-skipped short-circuit. -/
theorem runSpecCase_shape (sc : SpecCase) :
    ((runSpecCase sc).stopped = true ∧ (runSpecCase sc).failedSet = false
        ∧ (runSpecCase sc).events = [Event.testBegin sc.sid])
      ∨ ((runSpecCase sc).stopped = false
        ∧ (runSpecCase sc).events
            = [Event.testBegin sc.sid,
               Event.testEnd sc.sid (runSpecCase sc).info.status
                 (runSpecCase sc).info.expectedStatus]
        ∧ (runSpecCase sc).failedSet
            = ((runSpecCase sc).info.expectedStatus != Status.skipped
                && (runSpecCase sc).info.status != Status.passed)) := by
  by_cases hskip : (initTestInfo sc).expectedStatus = Status.skipped
  · have hbeq : ((initTestInfo sc).expectedStatus == Status.skipped) = true := by
      simp [hskip]
    right
    simp [runSpecCase, hbeq, hskip]
  · have hbeq : ((initTestInfo sc).expectedStatus == Status.skipped) = false := by
      simpa using hskip
    have hne : ((initTestInfo sc).expectedStatus != Status.skipped) = true := by
      simpa using hskip
    by_cases hstop1 : sc.stopAfterEnvPhase = true
    · left
      simp [runSpecCase, hbeq, hstop1]
    · simp only [Bool.not_eq_true] at hstop1
      by_cases hsucc : envBeforeEachSucceeds sc.envBeforeEach = true
      · obtain ⟨hN, hI⟩ := runEnvBeforeEach_ok sc.envBeforeEach (initTestInfo sc) hsucc
        by_cases ht : sc.envPhaseTimesOut = true
        · right
          have hst : (initTestInfo sc).status = Status.passed := rfl
          simp [runSpecCase, hbeq, hstop1, ht, hst, hne]
        · simp only [Bool.not_eq_true] at ht
          by_cases ht2 : sc.beforePhaseTimesOut = true
          · by_cases hstop2 : sc.stopAfterBeforePhase = true
            · left
              have hst : (initTestInfo sc).status = Status.passed := rfl
              simp [runSpecCase, hbeq, hstop1, ht, ht2, hstop2, hN, hI, hst]
            · simp only [Bool.not_eq_true] at hstop2
              by_cases hstop3 : sc.stopAfterAfterPhase = true
              · left
                have hst : (initTestInfo sc).status = Status.passed := rfl
                simp [runSpecCase, hbeq, hstop1, ht, ht2, hstop2, hstop3, hN, hI, hst]
              · simp only [Bool.not_eq_true] at hstop3
                right
                rw [runSpecCase_beforeTimeout sc (by simpa [initTestInfo] using hskip)
                  hsucc ht ht2 hstop1 hstop2 hstop3]
                by_cases hto : sc.afterPhaseTimesOut = true
                · simp [hto, hne]
                · simp only [Bool.not_eq_true] at hto
                  have hexpA := runAfterHooks_expected sc
                    { initTestInfo sc with status := Status.timedOut }
                  simp [hto, hexpA, hne]
          · simp only [Bool.not_eq_true] at ht2
            by_cases hstop2 : sc.stopAfterBeforePhase = true
            · left
              simp [runSpecCase, hbeq, hstop1, ht, ht2, hstop2, hN, hI]
            · simp only [Bool.not_eq_true] at hstop2
              by_cases hstop3 : sc.stopAfterAfterPhase = true
              · left
                simp [runSpecCase, hbeq, hstop1, ht, ht2, hstop2, hstop3, hN, hI]
              · simp only [Bool.not_eq_true] at hstop3
                right
                have hexpB := runTestWithBeforeHooks_expected sc (initTestInfo sc)
                have hexpA := runAfterHooks_expected sc
                  (runTestWithBeforeHooks sc (initTestInfo sc)).1
                by_cases hto : sc.afterPhaseTimesOut = true
                · by_cases hc : ((runTestWithBeforeHooks sc (initTestInfo sc)).1.status
                      == Status.passed) = true
                  · simp [runSpecCase, hbeq, hstop1, ht, ht2, hstop2, hstop3, hto,
                      hN, hI, hc, hexpB, hne]
                  · simp only [Bool.not_eq_true] at hc
                    simp [runSpecCase, hbeq, hstop1, ht, ht2, hstop2, hstop3, hto,
                      hN, hI, hc, hexpB, hne]
                · simp only [Bool.not_eq_true] at hto
                  simp [runSpecCase, hbeq, hstop1, ht, ht2, hstop2, hstop3, hto,
                    hN, hI, hexpA, hexpB, hne]
      · have hthrows : ∃ e, sc.envBeforeEach = EnvBeforeEachB.throws e := by
          cases henvB : sc.envBeforeEach with
          | absent => rw [henvB] at hsucc; simp [envBeforeEachSucceeds] at hsucc
          | returns a => rw [henvB] at hsucc; simp [envBeforeEachSucceeds] at hsucc
          | throws e => exact ⟨e, rfl⟩
        obtain ⟨e, henvB⟩ := hthrows
        right
        have hst : (initTestInfo sc).status = Status.passed := rfl
        by_cases ht : sc.envPhaseTimesOut = true
        · simp [runSpecCase, hbeq, hstop1, henvB, ht, runEnvBeforeEach, hne, hst]
        · simp only [Bool.not_eq_true] at ht
          simp [runSpecCase, hbeq, hstop1, henvB, ht, runEnvBeforeEach, hne, hst]

/-- C1 counterexample: with two ancestor beforeEach hooks of which the
    first throws, _runHooks still runs the second hook (its loop always
    runs all the hooks and captures the first error), so the claim that the
    remaining beforeEach hooks do not run is false; the body is skipped and
    the afterEach hooks still run. -/
theorem C1_counterexample :
    (runSpecCase specHookThrows).beforeLog = [0, 1]
      ∧ (specHookThrows.chain.head?.map (fun s => s.hooks.head?.map (fun h => h.throws)))
          = some (some (some (some (Err.failure 7))))
      ∧ ¬ ((runSpecCase specHookThrows).beforeLog = [0])
      ∧ (runSpecCase specHookThrows).bodyRan = false
      ∧ (runSpecCase specHookThrows).info.status = Status.failed
      ∧ (runSpecCase specHookThrows).afterLog = [2]
      ∧ (runSpecCase specHookThrows).envAfterRan = true := by
  decide

/-- C1 (amended). For every executed attempt whose beforeEach hook loop
    captures an ordinary error, the hooks run outermost-first in
    declaration order and ALL of them run (the first error is captured and
    rethrown after the loop), the test body does not run, the attempt is
    failed with the first captured error, and the afterEach hooks and the
    environment afterEach still run. -/
theorem C1_beforeEach_failure_amended (sc : SpecCase) (m : Nat)
    (hexp : computeExpectedStatus (collectAnnotations sc.chain) ≠ Status.skipped)
    (henv : envBeforeEachSucceeds sc.envBeforeEach = true)
    (ht1 : sc.envPhaseTimesOut = false) (ht2 : sc.beforePhaseTimesOut = false)
    (ht3 : sc.afterPhaseTimesOut = false)
    (hs1 : sc.stopAfterEnvPhase = false) (hs2 : sc.stopAfterBeforePhase = false)
    (hs3 : sc.stopAfterAfterPhase = false)
    (hthrow : (runHookLoop (hooksToRun sc.chain HookKind.beforeEach)).2
        = some (Err.failure m)) :
    (runSpecCase sc).beforeLog = outermostFirstHooks sc.chain HookKind.beforeEach
      ∧ (runSpecCase sc).bodyRan = false
      ∧ (runSpecCase sc).info.status = Status.failed
      ∧ (runSpecCase sc).info.error = some (Err.failure m)
      ∧ (runSpecCase sc).afterLog
          = (hooksToRun sc.chain HookKind.afterEach).map (fun h => h.hid)
      ∧ (runSpecCase sc).envAfterRan = sc.envAfterEach.isSome
      ∧ (runSpecCase sc).events
          = [Event.testBegin sc.sid,
             Event.testEnd sc.sid Status.failed
               (computeExpectedStatus (collectAnnotations sc.chain))]
      ∧ (runSpecCase sc).failedSet = true := by
  rw [runSpecCase_executed sc hexp henv ht1 ht2 ht3 hs1 hs2 hs3,
    runTestWithBeforeHooks_hookFailure sc (initTestInfo sc) m hthrow]
  have hfrozen := runAfterHooks_frozen sc
    { expectedStatus := computeExpectedStatus (collectAnnotations sc.chain),
      anns := collectAnnotations sc.chain,
      status := Status.failed, error := some (Err.failure m) }
    (by simp)
  refine ⟨?_, rfl, ?_, ?_, ?_, ?_, ?_, ?_⟩ <;>
    simp [hfrozen, runAfterHooks_log, runAfterHooks_envRan,
      hooksToRun_beforeEach_order, initTestInfo]

/-- C1 witness: the amended statement at the concrete two-hook attempt. -/
theorem C1_beforeEach_failure_amended_witness :
    (runSpecCase specHookThrows).beforeLog
        = outermostFirstHooks specHookThrows.chain HookKind.beforeEach
      ∧ (runSpecCase specHookThrows).bodyRan = false
      ∧ (runSpecCase specHookThrows).info.status = Status.failed := by
  have h := C1_beforeEach_failure_amended specHookThrows 7
    (by decide) (by decide) (by decide) (by decide) (by decide)
    (by decide) (by decide) (by decide) (by decide)
  exact ⟨h.1, h.2.1, h.2.2.1⟩

/-- C2 counterexample: when the environment beforeEach throws, the worker
    skips the whole teardown block (lines 238-239: testArgs is undefined),
    so the ancestor afterEach hook and the environment afterEach are NOT
    invoked, contradicting the claim that they still run. -/
theorem C2_counterexample :
    (runSpecCase specEnvThrows).info.status = Status.failed
      ∧ (runSpecCase specEnvThrows).bodyRan = false
      ∧ (runSpecCase specEnvThrows).afterLog = []
      ∧ (runSpecCase specEnvThrows).envAfterRan = false
      ∧ ¬ (hooksToRun specEnvThrows.chain HookKind.afterEach = [])
      ∧ specEnvThrows.envAfterEach.isSome = true := by
  decide

/-- C2 (amended). For every attempt in which the environment beforeEach
    throws, the attempt is marked failed with that error and the body is
    not invoked - but the ancestor afterEach hooks and the environment
    afterEach are NOT invoked either: initialization failure skips the
    whole teardown, and testEnd is emitted with status failed. -/
theorem C2_env_beforeEach_failure_amended (sc : SpecCase) (e : Err)
    (hexp : computeExpectedStatus (collectAnnotations sc.chain) ≠ Status.skipped)
    (henv : sc.envBeforeEach = EnvBeforeEachB.throws e)
    (ht1 : sc.envPhaseTimesOut = false)
    (hs1 : sc.stopAfterEnvPhase = false) :
    (runSpecCase sc).info.status = Status.failed
      ∧ (runSpecCase sc).info.error = some e
      ∧ (runSpecCase sc).bodyRan = false
      ∧ (runSpecCase sc).beforeLog = []
      ∧ (runSpecCase sc).afterLog = []
      ∧ (runSpecCase sc).envAfterRan = false
      ∧ (runSpecCase sc).events
          = [Event.testBegin sc.sid,
             Event.testEnd sc.sid Status.failed
               (computeExpectedStatus (collectAnnotations sc.chain))]
      ∧ (runSpecCase sc).failedSet = true := by
  have hbeq : ((initTestInfo sc).expectedStatus == Status.skipped) = false := by
    simp only [initTestInfo]
    simpa using hexp
  simp [runSpecCase, hbeq, henv, ht1, hs1, runEnvBeforeEach, initTestInfo, hexp]

/-- C2 witness: the amended statement at the concrete attempt whose
    environment beforeEach throws. -/
theorem C2_env_beforeEach_failure_amended_witness :
    (runSpecCase specEnvThrows).info.status = Status.failed
      ∧ (runSpecCase specEnvThrows).afterLog = []
      ∧ (runSpecCase specEnvThrows).envAfterRan = false := by
  have h := C2_env_beforeEach_failure_amended specEnvThrows (Err.failure 5)
    (by decide) (by decide) (by decide) (by decide)
  exact ⟨h.1, h.2.2.2.2.1, h.2.2.2.2.2.1⟩

/-- C3. For every attempt whose before phase (ancestor beforeEach hooks
    plus body) exceeds the deadline, the attempt status becomes timedOut,
    and the after hooks are raced against a fresh full-length deadline
    (not the already-expired one); when that teardown race completes, all
    ancestor afterEach hooks and the environment afterEach (when defined)
    have run, and testEnd carries status timedOut. -/
theorem C3_timeout_teardown_fresh_deadline (sc : SpecCase)
    (hexp : computeExpectedStatus (collectAnnotations sc.chain) ≠ Status.skipped)
    (henv : envBeforeEachSucceeds sc.envBeforeEach = true)
    (ht1 : sc.envPhaseTimesOut = false) (ht2 : sc.beforePhaseTimesOut = true)
    (hs1 : sc.stopAfterEnvPhase = false) (hs2 : sc.stopAfterBeforePhase = false)
    (hs3 : sc.stopAfterAfterPhase = false) :
    (runSpecCase sc).info.status = Status.timedOut
      ∧ (runSpecCase sc).afterDeadline = some DeadlineKind.fresh
      ∧ (sc.afterPhaseTimesOut = false →
          (runSpecCase sc).afterLog
              = (hooksToRun sc.chain HookKind.afterEach).map (fun h => h.hid)
            ∧ (runSpecCase sc).envAfterRan = sc.envAfterEach.isSome)
      ∧ (runSpecCase sc).events
          = [Event.testBegin sc.sid,
             Event.testEnd sc.sid Status.timedOut
               (computeExpectedStatus (collectAnnotations sc.chain))]
      ∧ (runSpecCase sc).failedSet = true := by
  rw [runSpecCase_beforeTimeout sc hexp henv ht1 ht2 hs1 hs2 hs3]
  have hfrozen := runAfterHooks_frozen sc
    { expectedStatus := computeExpectedStatus (collectAnnotations sc.chain),
      anns := collectAnnotations sc.chain,
      status := Status.timedOut, error := none } (by simp)
  refine ⟨?_, rfl, ?_, ?_, ?_⟩
  · by_cases hto : sc.afterPhaseTimesOut = true <;>
      simp [hto, hfrozen, initTestInfo]
  · intro hto
    simp [hto, runAfterHooks_log, runAfterHooks_envRan]
  · by_cases hto : sc.afterPhaseTimesOut = true <;>
      simp [hto, hfrozen, initTestInfo]
  · by_cases hto : sc.afterPhaseTimesOut = true <;>
      simp [hto, hfrozen, initTestInfo]

/-- C3 witness: the concrete attempt whose before phase times out. -/
theorem C3_timeout_teardown_fresh_deadline_witness :
    (runSpecCase specBodyTimesOut).info.status = Status.timedOut
      ∧ (runSpecCase specBodyTimesOut).afterDeadline = some DeadlineKind.fresh
      ∧ (runSpecCase specBodyTimesOut).afterLog = [3]
      ∧ (runSpecCase specBodyTimesOut).envAfterRan = true := by
  have h := C3_timeout_teardown_fresh_deadline specBodyTimesOut
    (by decide) (by decide) (by decide) (by decide) (by decide) (by decide) (by decide)
  have h3 := h.2.2.1 (by decide)
  exact ⟨h.1, h.2.1, h3.1, h3.2⟩

/-- The inherited annotation list satisfies a predicate exactly when some
    ancestor suite has an annotation satisfying it. -/
theorem collectAnnotations_any (chain : List SuiteNode) (p : AnnKind → Bool) :
    (collectAnnotations chain).any p = chain.any (fun s => s.anns.any p) := by
  have hflat : ∀ L : List (List AnnKind),
      L.flatten.any p = L.any (fun l => l.any p) := by
    intro L
    induction L with
    | nil => simp
    | cons x xs ih => simp [ih]
  have h := foldl_append_flatten (fun (s : SuiteNode) => s.anns) chain []
  show (chain.foldl (fun acc s => acc ++ s.anns) []).any p = _
  rw [h]
  have hmap : ∀ l : List SuiteNode,
      (l.map (fun s => s.anns)).any (fun x => x.any p)
        = l.any (fun s => s.anns.any p) := by
    intro l
    induction l with
    | nil => simp
    | cons x xs ih => simp [ih]
  simp only [List.nil_append, hflat]
  exact hmap chain

/-- C4. For every attempt, the expected status computed before execution is
    skipped when any ancestor suite carries a skip or fixme annotation,
    otherwise failed when any ancestor carries a fail annotation, otherwise
    passed; and an attempt whose expected status is skipped emits testBegin
    followed immediately by testEnd with status skipped, with no hook and
    no body run. -/
theorem C4_expected_status_and_skip (sc : SpecCase) :
    computeExpectedStatus (collectAnnotations sc.chain)
        = (if sc.chain.any (fun s => s.anns.any
              (fun a => a == AnnKind.skip || a == AnnKind.fixme))
           then Status.skipped
           else if sc.chain.any (fun s => s.anns.any (fun a => a == AnnKind.fail))
           then Status.failed
           else Status.passed)
      ∧ (computeExpectedStatus (collectAnnotations sc.chain) = Status.skipped →
          (runSpecCase sc).events
              = [Event.testBegin sc.sid,
                 Event.testEnd sc.sid Status.skipped Status.skipped]
            ∧ (runSpecCase sc).beforeLog = []
            ∧ (runSpecCase sc).bodyRan = false
            ∧ (runSpecCase sc).afterLog = []
            ∧ (runSpecCase sc).envAfterRan = false
            ∧ (runSpecCase sc).info.status = Status.skipped
            ∧ (runSpecCase sc).failedSet = false) := by
  constructor
  · simp only [computeExpectedStatus, collectAnnotations_any]
  · intro h
    have hbeq : ((initTestInfo sc).expectedStatus == Status.skipped) = true := by
      simp [initTestInfo, h]
    simp [runSpecCase, hbeq, initTestInfo, h]

/-- C4 witness: a concrete attempt under a skip-annotated suite. -/
theorem C4_expected_status_and_skip_witness :
    (runSpecCase specSkipAnnotated).events
        = [Event.testBegin 3, Event.testEnd 3 Status.skipped Status.skipped]
      ∧ (runSpecCase specSkipAnnotated).bodyRan = false
      ∧ (runSpecCase specSkipAnnotated).beforeLog = [] := by
  have h := (C4_expected_status_and_skip specSkipAnnotated).2 (by decide)
  exact ⟨h.1, h.2.2.1, h.2.1⟩

/-- C8 counterexample: an attempt with expected status failed whose body
    throws ends with its expected status, yet the worker still records
    failedTestId - the code compares only against passed, never against the
    expected status. -/
theorem C8_counterexample :
    (runSpecCase specExpectedFailure).failedSet = true
      ∧ (runSpecCase specExpectedFailure).info.status = Status.failed
      ∧ (runSpecCase specExpectedFailure).info.expectedStatus = Status.failed
      ∧ ¬ (((runSpecCase specExpectedFailure).failedSet = true) ↔
          ((runSpecCase specExpectedFailure).info.status ≠ Status.passed
            ∧ (runSpecCase specExpectedFailure).info.status
                ≠ (runSpecCase specExpectedFailure).info.expectedStatus)) := by
  decide

/-- C8 (amended). For every completed (not interrupted) attempt, the worker
    records failedTestId exactly when the attempt went through the executed
    path (expected status not skipped) and its final status is not passed -
    the expected status is otherwise not consulted; and recording it sets
    the worker stopped with a done payload carrying that test id and the
    remaining entries. -/
theorem C8_failedTestId_amended (entries : List Nat) (st : WorkerState)
    (sc : SpecCase)
    (hdone : (runSpecCase sc).stopped = false)
    (hst : st.isStopped = false) (hmem : sc.sid ∈ entries) :
    ((runSpecCase sc).failedSet = true ↔
        ((runSpecCase sc).info.expectedStatus ≠ Status.skipped
          ∧ (runSpecCase sc).info.status ≠ Status.passed))
      ∧ ((runSpecCase sc).failedSet = true →
          (runSpecStep entries st sc).failedTestId = some sc.sid
            ∧ (runSpecStep entries st sc).isStopped = true
            ∧ (runSpecStep entries st sc).done
                = some { failedTestId := some sc.sid,
                         remaining := st.remaining.erase sc.sid }) := by
  rcases runSpecCase_shape sc with ⟨h1, _, _⟩ | ⟨h1, h2, h3⟩
  · rw [hdone] at h1
    exact absurd h1 (by simp)
  · constructor
    · rw [h3]
      simp [Bool.and_eq_true, bne_iff_ne]
    · intro hf
      simp [runSpecStep, hst, hmem, h1, hf]

/-- C8 witness: the amended statement at the expected-failure attempt. -/
theorem C8_failedTestId_amended_witness :
    (runSpecStep [5] wstate8 specExpectedFailure).failedTestId = some 5
      ∧ (runSpecStep [5] wstate8 specExpectedFailure).isStopped = true := by
  have h := C8_failedTestId_amended [5] wstate8 specExpectedFailure
    (by decide) (by decide) (by decide)
  have h2 := h.2 (by decide)
  exact ⟨h2.1, h2.2.1⟩

/-- Scanning an appended trace continues from the scan of the first part. -/
theorem scanEvents_append (a b : List Event) :
    scanEvents (a ++ b) = b.foldl scanStep (scanEvents a) := by
  simp [scanEvents, List.foldl_append]

/-- A balanced trace followed by a begin-end pair stays balanced. -/
theorem scanEvents_block (a : List Event) (i : Nat) (s e : Status)
    (h : scanEvents a = some none) :
    scanEvents (a ++ [Event.testBegin i, Event.testEnd i s e]) = some none := by
  rw [scanEvents_append, h]
  simp [scanStep]

/-- A balanced trace followed by a lone begin has exactly that test open. -/
theorem scanEvents_dangling (a : List Event) (i : Nat)
    (h : scanEvents a = some none) :
    scanEvents (a ++ [Event.testBegin i]) = some (some i) := by
  rw [scanEvents_append, h]
  simp [scanStep]

/-- Worker trace invariant for C5: a running worker has a balanced trace,
    and any worker trace is balanced or has exactly its final testBegin
    unmatched. -/
theorem runSpecStep_scanInv (entries : List Nat) (sc : SpecCase)
    (st : WorkerState)
    (h1 : st.isStopped = false → scanEvents st.events = some none)
    (h2 : scanEvents st.events = some none
      ∨ ∃ i, scanEvents st.events = some (some i)) :
    ((runSpecStep entries st sc).isStopped = false →
        scanEvents (runSpecStep entries st sc).events = some none)
      ∧ (scanEvents (runSpecStep entries st sc).events = some none
        ∨ ∃ i, scanEvents (runSpecStep entries st sc).events = some (some i)) := by
  by_cases hstop : st.isStopped = true
  · have heq : runSpecStep entries st sc = st := by simp [runSpecStep, hstop]
    rw [heq]
    exact ⟨h1, h2⟩
  · simp only [Bool.not_eq_true] at hstop
    have hbal := h1 hstop
    by_cases hmem : sc.sid ∈ entries
    · simp only [runSpecStep, hstop, Bool.false_eq_true, if_false, hmem, if_true]
      rcases runSpecCase_shape sc with ⟨hs, _, hev⟩ | ⟨hs, hev, _⟩
      · simp only [hs, hev, if_true]
        refine ⟨fun hc => by simp at hc, Or.inr ⟨sc.sid, ?_⟩⟩
        exact scanEvents_dangling st.events sc.sid hbal
      · have hscan := scanEvents_block st.events sc.sid
          (runSpecCase sc).info.status (runSpecCase sc).info.expectedStatus hbal
        rw [← hev] at hscan
        simp only [hs, Bool.false_eq_true, if_false]
        by_cases hf : (runSpecCase sc).failedSet = true
        · simp only [hf, if_true]
          exact ⟨fun _ => hscan, Or.inl hscan⟩
        · simp only [Bool.not_eq_true] at hf
          simp only [hf, Bool.false_eq_true, if_false]
          exact ⟨fun _ => hscan, Or.inl hscan⟩
    · have heq : runSpecStep entries st sc = st := by
        simp [runSpecStep, hstop, hmem]
      rw [heq]
      exact ⟨h1, h2⟩

/-- C5 (amended). For every worker run, the emitted trace is well formed:
    every testEnd is preceded by a matching open testBegin with the same
    testId and no two tests overlap; every testBegin is matched by a
    testEnd, except that a worker stopped mid-attempt may leave exactly its
    final testBegin unmatched. -/
theorem C5_trace_pairs_amended (entries : List Nat) (specs : List SpecCase) :
    scanEvents (runWorker entries specs).events = some none
      ∨ ((runWorker entries specs).isStopped = true
        ∧ ∃ i, scanEvents (runWorker entries specs).events = some (some i)) := by
  have key : ∀ (l : List SpecCase) (st : WorkerState),
      (st.isStopped = false → scanEvents st.events = some none) →
      (scanEvents st.events = some none
        ∨ ∃ i, scanEvents st.events = some (some i)) →
      (((l.foldl (runSpecStep entries) st).isStopped = false →
          scanEvents (l.foldl (runSpecStep entries) st).events = some none)
        ∧ (scanEvents (l.foldl (runSpecStep entries) st).events = some none
          ∨ ∃ i, scanEvents (l.foldl (runSpecStep entries) st).events
              = some (some i))) := by
    intro l
    induction l with
    | nil => intro st h1 h2; exact ⟨h1, h2⟩
    | cons sc rest ih =>
      intro st h1 h2
      have hstep := runSpecStep_scanInv entries sc st h1 h2
      exact ih (runSpecStep entries st sc) hstep.1 hstep.2
  have h0 : scanEvents ([] : List Event) = some none := rfl
  obtain ⟨k1, k2⟩ := key specs
    { events := [], remaining := entries, failedTestId := none,
      isStopped := false, done := none } (fun _ => h0) (Or.inl h0)
  simp only [runWorker]
  by_cases hstop : (specs.foldl (runSpecStep entries)
      { events := [], remaining := entries, failedTestId := none,
        isStopped := false, done := none }).isStopped = true
  · rw [if_pos hstop]
    rcases k2 with hk | ⟨i, hk⟩
    · exact Or.inl hk
    · exact Or.inr ⟨hstop, i, hk⟩
  · rw [if_neg hstop]
    simp only [Bool.not_eq_true] at hstop
    exact Or.inl (k1 hstop)

/-- C5 counterexample: a worker stopped while awaiting the environment
    beforeEach emits a testBegin with no matching testEnd, so testBegin and
    testEnd do not come in matched pairs across the worker's lifetime. -/
theorem C5_counterexample :
    (runWorker [4] [specStopMidAttempt]).events = [Event.testBegin 4]
      ∧ scanEvents (runWorker [4] [specStopMidAttempt]).events = some (some 4)
      ∧ ¬ (scanEvents (runWorker [4] [specStopMidAttempt]).events = some none) := by
  decide

/-- One worker step preserves the C10 invariant. -/
theorem runSpecStep_c10Inv (entries : List Nat) (sc : SpecCase)
    (st : WorkerState) (hq : c10Inv entries st) :
    c10Inv entries (runSpecStep entries st sc) := by
  obtain ⟨q1, q2, q7, q3, q4, q5, q6⟩ := hq
  by_cases hstop : st.isStopped = true
  · have heq : runSpecStep entries st sc = st := by simp [runSpecStep, hstop]
    rw [heq]
    exact ⟨q1, q2, q7, q3, q4, q5, q6⟩
  · simp only [Bool.not_eq_true] at hstop
    obtain ⟨hc0, hd0⟩ := q3 hstop
    by_cases hmem : sc.sid ∈ entries
    · have hq1 : (st.remaining.erase sc.sid).Nodup := q1.erase sc.sid
      have hq2 : ∀ i ∈ st.remaining.erase sc.sid,
          Event.testBegin i ∉ st.events ++ (runSpecCase sc).events := by
        intro i hi
        obtain ⟨hine, himem⟩ := (List.Nodup.mem_erase_iff q1).mp hi
        intro hmem2
        rcases List.mem_append.mp hmem2 with hA | hB
        · exact q2 i himem hA
        · rcases runSpecCase_shape sc with ⟨_, _, hev⟩ | ⟨_, hev, _⟩ <;>
            · rw [hev] at hB
              simp at hB
              exact hine hB
      have hBeginMem : Event.testBegin sc.sid ∈ (runSpecCase sc).events := by
        rcases runSpecCase_shape sc with ⟨_, _, hev⟩ | ⟨_, hev, _⟩ <;> simp [hev]
      have hq7 : ∀ i ∈ entries,
          Event.testBegin i ∉ st.events ++ (runSpecCase sc).events →
            i ∈ st.remaining.erase sc.sid := by
        intro i hiE hnotin
        have hA : Event.testBegin i ∉ st.events := fun h =>
          hnotin (List.mem_append.mpr (Or.inl h))
        have hne : i ≠ sc.sid := by
          intro hEq
          exact hnotin (List.mem_append.mpr (Or.inr (hEq ▸ hBeginMem)))
        exact (List.mem_erase_of_ne hne).mpr (q7 i hiE hA)
      have hcApp : (st.events ++ (runSpecCase sc).events).countP isExecFailureEnd
          = (runSpecCase sc).events.countP isExecFailureEnd := by
        rw [List.countP_append, hc0]
        omega
      simp only [runSpecStep, hstop, Bool.false_eq_true, if_false, hmem, if_true]
      rcases runSpecCase_shape sc with ⟨hs, hfs, hev⟩ | ⟨hs, hev, hfs⟩
      · have hcnt : (runSpecCase sc).events.countP isExecFailureEnd = 0 := by
          simp [hev, isExecFailureEnd]
        simp only [hs, if_true]
        refine ⟨hq1, hq2, hq7, ?_, ?_, ?_, ?_⟩
        · intro hc
          simp at hc
        · rw [hcApp, hcnt]
          omega
        · intro d hd
          rw [hd0] at hd
          simp at hd
        · intro hpos
          rw [hcApp, hcnt] at hpos
          omega
      · have hBeg : isExecFailureEnd (Event.testBegin sc.sid) = false := rfl
        have hEnd : isExecFailureEnd
            (Event.testEnd sc.sid (runSpecCase sc).info.status
              (runSpecCase sc).info.expectedStatus) = (runSpecCase sc).failedSet := by
          simp only [isExecFailureEnd, hfs]
          exact Bool.and_comm _ _
        have hcnt : (runSpecCase sc).events.countP isExecFailureEnd
            = (if (runSpecCase sc).failedSet = true then 1 else 0) := by
          rw [hev]
          by_cases hf : (runSpecCase sc).failedSet = true
          · simp [List.countP_cons, hBeg, hEnd, hf]
          · simp only [Bool.not_eq_true] at hf
            simp [List.countP_cons, hBeg, hEnd, hf]
        simp only [hs, Bool.false_eq_true, if_false]
        by_cases hf : (runSpecCase sc).failedSet = true
        · simp only [hf, if_true]
          refine ⟨hq1, hq2, hq7, ?_, ?_, ?_, ?_⟩
          · intro hc
            simp at hc
          · rw [hcApp, hcnt, if_pos hf]
          · intro d hd
            simp only [Option.some_inj] at hd
            rw [← hd]
          · intro hpos
            exact ⟨rfl, rfl⟩
        · simp only [Bool.not_eq_true] at hf
          simp only [hf, Bool.false_eq_true, if_false]
          refine ⟨hq1, hq2, hq7, ?_, ?_, ?_, ?_⟩
          · intro hrun
            refine ⟨?_, hd0⟩
            rw [hcApp, hcnt]
            simp [hf]
          · rw [hcApp, hcnt]
            simp [hf]
          · intro d hd
            rw [hd0] at hd
            simp at hd
          · intro hpos
            rw [hcApp, hcnt] at hpos
            simp [hf] at hpos
    · have heq : runSpecStep entries st sc = st := by
        simp [runSpecStep, hstop, hmem]
      rw [heq]
      exact ⟨q1, q2, q7, q3, q4, q5, q6⟩

/-- C10 (amended). For every worker run over distinct entries: at most one
    executed attempt ends with a non-passed status (annotation-skipped
    attempts end skipped without stopping the worker and are not counted);
    while the worker keeps running no executed-failure end has been
    emitted; every done payload carries exactly the not-yet-executed
    entries as remaining - each remaining entry was never begun, and every
    assigned entry that was never begun is in the payload; and as soon as
    an executed-failure testEnd is emitted the worker is stopped with a
    done report. -/
theorem C10_single_failure_amended (entries : List Nat) (specs : List SpecCase)
    (hnd : entries.Nodup) :
    (runWorker entries specs).events.countP isExecFailureEnd ≤ 1
      ∧ ((runWorker entries specs).isStopped = false →
          (runWorker entries specs).events.countP isExecFailureEnd = 0)
      ∧ (∀ d, (runWorker entries specs).done = some d →
          ∀ i ∈ d.remaining, Event.testBegin i ∉ (runWorker entries specs).events)
      ∧ (∀ d, (runWorker entries specs).done = some d →
          ∀ i ∈ entries, Event.testBegin i ∉ (runWorker entries specs).events →
            i ∈ d.remaining)
      ∧ (0 < (runWorker entries specs).events.countP isExecFailureEnd →
          (runWorker entries specs).isStopped = true
            ∧ ((runWorker entries specs).done).isSome = true) := by
  have key : ∀ (l : List SpecCase) (st : WorkerState), c10Inv entries st →
      c10Inv entries (l.foldl (runSpecStep entries) st) := by
    intro l
    induction l with
    | nil => intro st h; exact h
    | cons sc rest ih =>
      intro st h
      exact ih _ (runSpecStep_c10Inv entries sc st h)
  have h0 : c10Inv entries
      { events := [], remaining := entries, failedTestId := none,
        isStopped := false, done := none } := by
    refine ⟨hnd, ?_, ?_, ?_, ?_, ?_, ?_⟩
    · intro i hi
      simp
    · intro i hi hnb
      exact hi
    · intro h
      exact ⟨rfl, rfl⟩
    · rw [List.countP_nil]
      omega
    · intro d hd
      simp at hd
    · intro hpos
      rw [List.countP_nil] at hpos
      omega
  obtain ⟨q1, q2, q7, q3, q4, q5, q6⟩ := key specs _ h0
  simp only [runWorker]
  by_cases hstop : (specs.foldl (runSpecStep entries)
      { events := [], remaining := entries, failedTestId := none,
        isStopped := false, done := none }).isStopped = true
  · rw [if_pos hstop]
    refine ⟨q4, ?_, ?_, ?_, q6⟩
    · intro hrun
      exact (q3 hrun).1
    · intro d hd i hi
      rw [q5 d hd] at hi
      exact q2 i hi
    · intro d hd i hiE hnb
      rw [q5 d hd]
      exact q7 i hiE hnb
  · rw [if_neg hstop]
    simp only [Bool.not_eq_true] at hstop
    obtain ⟨hc0, hd0⟩ := q3 hstop
    refine ⟨q4, fun _ => hc0, ?_, ?_, ?_⟩
    · intro d hd i hi
      simp only [Option.some_inj] at hd
      rw [← hd] at hi
      exact q2 i hi
    · intro d hd i hiE hnb
      simp only [Option.some_inj] at hd
      rw [← hd]
      exact q7 i hiE hnb
    · intro hpos
      rw [hc0] at hpos
      omega

/-- C10 counterexample: two annotation-skipped attempts both end with
    status skipped - a status other than passed - yet the worker does not
    stop after the first one, so more than one testEnd with non-passed
    status is emitted in one run. -/
theorem C10_counterexample :
    ((runWorker [3, 6] [specSkipAnnotated, specSkipAnnotated2]).events.countP
        isNonPassedEnd) = 2
      ∧ (runWorker [3, 6] [specSkipAnnotated, specSkipAnnotated2]).isStopped = false
      ∧ ¬ (((runWorker [3, 6] [specSkipAnnotated, specSkipAnnotated2]).events.countP
          isNonPassedEnd) ≤ 1) := by
  decide

/-- C10 witness: a run with one skip-annotated spec and one failing spec. -/
theorem C10_single_failure_amended_witness :
    (runWorker [3, 0] [specSkipAnnotated, specHookThrows]).events.countP
        isExecFailureEnd ≤ 1
      ∧ (0 < (runWorker [3, 0] [specSkipAnnotated, specHookThrows]).events.countP
            isExecFailureEnd →
          (runWorker [3, 0] [specSkipAnnotated, specHookThrows]).isStopped = true
            ∧ ((runWorker [3, 0] [specSkipAnnotated, specHookThrows]).done).isSome
                = true) := by
  have h := C10_single_failure_amended [3, 0] [specSkipAnnotated, specHookThrows]
    (by decide)
  exact ⟨h.1, h.2.2.2.2⟩

end Folio
